import Mathlib

/-!
Shallow embedding of the ctrlb-hq/load-gen telemetry generator.

The repository contains two log-generator variants (in main.go and in
log_generator.go) and two trace-generator variants (trace_generator.go and
the one embedded in log_generator.go).  External effects (JSON marshaling,
HTTP request creation, the HTTP round trip) are passed in as explicit
outcomes; real time is modelled as a virtual nanosecond clock that advances
exactly by the simulated sleep durations.
-/

namespace LoadGen

/-- A single log entry, mirroring the Go struct LogRecord
(fields level, job, log, _timestamp). -/
structure LogRecord where
  level : String
  job : String
  log : String
  timestamp : String
deriving DecidableEq

/-- One span of a trace, mirroring the Go struct Span.  The Go ParentID has
the omitempty JSON tag; an absent parent is the empty string. -/
structure Span where
  traceId : String
  spanId : String
  parentId : String
  name : String
  startTime : Int
  endTime : Int
  serviceName : String
  attributes : List (String × String)
deriving DecidableEq

/-- A trace is an ordered list of spans, mirroring the Go struct Trace. -/
structure Trace where
  spans : List Span
deriving DecidableEq

/-- An HTTP response as far as the generators observe it: a status code and
an uninterpreted body. -/
structure HttpResponse where
  statusCode : Nat
  body : List Nat
deriving DecidableEq

/-- Which branch of a send function executed: success, or one of the
failure returns (marshal error, request-creation error, transport error,
or a rejecting status code). -/
inductive SendResult where
  | success
  | marshalFailed
  | requestFailed
  | transportFailed
  | rejected (status : Nat)
deriving DecidableEq

/-- The job catalog (jobTypes in the source). -/
def jobTypes : List String :=
  ["user-service", "payment-processor", "order-management",
   "inventory-service", "notification-service", "authentication-service",
   "search-service", "recommendation-engine", "email-service", "analytics-processor"]

/-- The service catalog of the trace generators (serviceNames in the source). -/
def serviceNames : List String :=
  ["user-service", "order-service", "payment-service", "inventory-service"]

/-- The weight map of getRandomLogLevel, as a key-value list.  The Go source
stores it in a map whose iteration order is not fixed; theorems therefore
quantify over permutations of this list. -/
def logWeights : List (String × Int) :=
  [("debug", 15), ("info", 60), ("warn", 20), ("error", 5)]

/-- The four level names. -/
def logLevelNames : List String := ["debug", "info", "warn", "error"]

/-- Sum of the weights, as computed by the first loop of getRandomLogLevel. -/
def weightsTotal (ws : List (String × Int)) : Int :=
  ws.foldl (fun acc p => acc + p.2) 0

/-- The selection loop of getRandomLogLevel in log_generator.go:
accumulate weights in iteration order and return the first level with
r < current; falls through to "info". -/
def selectLoopLT : List (String × Int) → Int → Int → String
  | [], _, _ => "info"
  | (level, w) :: rest, current, r =>
    if r < current + w then level else selectLoopLT rest (current + w) r

/-- The selection loop of getRandomLogLevel in main.go: the draw there is
gofakeit.IntRange(1, total) and the comparison is r <= current. -/
def selectLoopLE : List (String × Int) → Int → Int → String
  | [], _, _ => "info"
  | (level, w) :: rest, current, r =>
    if r ≤ current + w then level else selectLoopLE rest (current + w) r

/-- getRandomLogLevel of log_generator.go, with the map iteration order and
the draw r = rand.Intn(total) passed in explicitly. -/
def getRandomLogLevel_lg (order : List (String × Int)) (r : Int) : String :=
  selectLoopLT order 0 r

/-- getRandomLogLevel of main.go, with the map iteration order and the draw
r = gofakeit.IntRange(1, total) passed in explicitly. -/
def getRandomLogLevel_main (order : List (String × Int)) (r : Int) : String :=
  selectLoopLE order 0 r

/-- The status classification claimed by the specification (refinement
reference, not source code): any 2xx status is success. -/
def is2xxSpec (code : Nat) : Bool :=
  decide (200 ≤ code) && decide (code ≤ 299)

/-- sendLogBatch of log_generator.go.  The outcomes of json.Marshal,
http.NewRequest and client.Do are explicit inputs; totalBytesSent is the
counter state threaded through.  A status of 400 or above is the failure
branch; otherwise the counter is incremented by the payload length. -/
def sendLogBatch_lg (marshalRes : Except Unit (List Nat)) (reqRes : Except Unit Unit)
    (doRes : Except Unit HttpResponse) (totalBytesSent : Int) : SendResult × Int :=
  match marshalRes with
  | .error _ => (.marshalFailed, totalBytesSent)
  | .ok batchData =>
    match reqRes with
    | .error _ => (.requestFailed, totalBytesSent)
    | .ok _ =>
      match doRes with
      | .error _ => (.transportFailed, totalBytesSent)
      | .ok resp =>
        if 400 ≤ resp.statusCode then (.rejected resp.statusCode, totalBytesSent)
        else (.success, totalBytesSent + batchData.length)

/-- sendLogBatch of main.go.  Identical staging, but the failure branch is
a status different from both 200 and 201. -/
def sendLogBatch_main (marshalRes : Except Unit (List Nat)) (reqRes : Except Unit Unit)
    (doRes : Except Unit HttpResponse) (totalBytesSent : Int) : SendResult × Int :=
  match marshalRes with
  | .error _ => (.marshalFailed, totalBytesSent)
  | .ok batchData =>
    match reqRes with
    | .error _ => (.requestFailed, totalBytesSent)
    | .ok _ =>
      match doRes with
      | .error _ => (.transportFailed, totalBytesSent)
      | .ok resp =>
        if resp.statusCode ≠ 200 ∧ resp.statusCode ≠ 201 then
          (.rejected resp.statusCode, totalBytesSent)
        else (.success, totalBytesSent + batchData.length)

/-- sendTrace of trace_generator.go.  The marshal-error check there has an
empty body in the source, so the error is discarded and the function
continues with the nil payload (modelled as the empty byte list).  The
second component records the body of the POST that was issued, none when
no POST happened. -/
def sendTrace (marshalRes : Except Unit (List Nat)) (reqRes : Except Unit Unit)
    (doRes : Except Unit HttpResponse) : SendResult × Option (List Nat) :=
  let payload : List Nat := match marshalRes with | .ok d => d | .error _ => []
  match reqRes with
  | .error _ => (.requestFailed, none)
  | .ok _ =>
    match doRes with
    | .error _ => (.transportFailed, some payload)
    | .ok resp =>
      if resp.statusCode ≠ 200 then (.rejected resp.statusCode, some payload)
      else (.success, some payload)

/-- The per-tick batch construction of generateLogData: a slice of
batchSize records, the timestamp captured once before the loop, and the
per-index random draws passed in as oracles. -/
def generateLogBatch (batchSize : Nat) (now : String)
    (levelAt jobAt msgAt : Nat → String) : List LogRecord :=
  (List.range batchSize).map fun i =>
    { level := levelAt i, job := jobAt i, log := msgAt i, timestamp := now }

/-- The attribute map of a child span in generateTrace. -/
def childAttributes (service : String) : List (String × String) :=
  [("span.kind", "client"), ("operation", "process_request"), ("service.name", service)]

/-- The root span built by generateTrace, with its end time stamped after
the service loop finishes. -/
def rootSpanOf (traceId rootId : String) (t0 tEnd : Int) : Span :=
  { traceId := traceId, spanId := rootId, parentId := "", name := "API Request",
    startTime := t0, endTime := tEnd, serviceName := "trace-generator",
    attributes := [("span.kind", "server")] }

/-- The service loop of generateTrace (trace_generator.go), without
cancellation.  t0 is the captured trace start (now.UnixNano()); clock is
the virtual current time in nanoseconds, advanced by each simulated sleep
of (100 + durAt i) milliseconds; jitAt i is the mathrand.Intn(100)
millisecond start jitter; idAt i the generated span id of child i.
Returns the child spans in loop order and the clock after the loop. -/
def childSpans (traceId rootId : String) (idAt : Nat → String) (jitAt : Nat → Fin 100)
    (durAt : Nat → Fin 200) (t0 : Int) :
    List String → Nat → Int → List Span × Int
  | [], _, clock => ([], clock)
  | service :: rest, i, clock =>
    let fireAt := clock + (100 + ((durAt i).val : Int)) * 1000000
    let tail := childSpans traceId rootId idAt jitAt durAt t0 rest (i + 1) fireAt
    ({ traceId := traceId, spanId := idAt i, parentId := rootId, name := service,
       startTime := t0 + ((jitAt i).val : Int) * 1000000, endTime := fireAt,
       serviceName := service, attributes := childAttributes service } :: tail.1,
     tail.2)

/-- generateTrace of trace_generator.go run to completion (no cancellation):
children are appended in service order, then the root span with its end
time stamped after all children. -/
def generateTrace (traceId rootId : String) (idAt : Nat → String) (jitAt : Nat → Fin 100)
    (durAt : Nat → Fin 200) (t0 : Int) (services : List String) : Trace :=
  let built := childSpans traceId rootId idAt jitAt durAt t0 services 0 t0
  ⟨built.1 ++ [rootSpanOf traceId rootId t0 built.2]⟩

/-- The service loop of generateTrace with cancellation: tc is the virtual
time at which the context is cancelled.  Each iteration first performs the
non-blocking select on ctx.Done (cancelled iff tc has already passed),
then waits on the span timer, aborting at tc if the cancellation arrives
before the timer fires.  Returns the outcome (error () is ctx.Err()) and
the virtual time at which the function returns. -/
def childSpansC (traceId rootId : String) (idAt : Nat → String) (jitAt : Nat → Fin 100)
    (durAt : Nat → Fin 200) (t0 tc : Int) :
    List String → Nat → Int → Except Unit (List Span) × Int
  | [], _, clock => (.ok [], clock)
  | service :: rest, i, clock =>
    if tc ≤ clock then (.error (), clock)
    else
      let fireAt := clock + (100 + ((durAt i).val : Int)) * 1000000
      if tc < fireAt then (.error (), tc)
      else
        let tail := childSpansC traceId rootId idAt jitAt durAt t0 tc rest (i + 1) fireAt
        (match tail.1 with
         | .ok spans =>
           .ok ({ traceId := traceId, spanId := idAt i, parentId := rootId, name := service,
                  startTime := t0 + ((jitAt i).val : Int) * 1000000, endTime := fireAt,
                  serviceName := service, attributes := childAttributes service } :: spans)
         | .error e => .error e,
         tail.2)

/-- generateTrace of trace_generator.go under a cancellation arriving at
virtual time tc: on cancellation the error propagates out before the trace
is assembled; otherwise the completed trace is returned for sending. -/
def generateTraceC (traceId rootId : String) (idAt : Nat → String) (jitAt : Nat → Fin 100)
    (durAt : Nat → Fin 200) (t0 tc : Int) (services : List String) :
    Except Unit Trace × Int :=
  let built := childSpansC traceId rootId idAt jitAt durAt t0 tc services 0 t0
  (match built.1 with
   | .error e => .error e
   | .ok children => .ok ⟨children ++ [rootSpanOf traceId rootId t0 built.2]⟩,
   built.2)

/-- The trace handed to sendTrace by a run of generateTrace under a
cancellation at tc: none when the run was cancelled (the function returns
ctx.Err() before reaching sendTrace). -/
def sentTraceC (traceId rootId : String) (idAt : Nat → String) (jitAt : Nat → Fin 100)
    (durAt : Nat → Fin 200) (t0 tc : Int) (services : List String) : Option Trace :=
  match (generateTraceC traceId rootId idAt jitAt durAt t0 tc services).1 with
  | .ok tr => some tr
  | .error _ => none

/-- Go channel-close semantics for the done channel: closing an open
channel closes it; closing an already-closed channel panics (the error
case).  The Bool state records whether the channel is closed. -/
def closeChan (alreadyClosed : Bool) : Except Unit Bool :=
  if alreadyClosed then .error () else .ok true

/-- The shutdown step of main in log_generator.go: close(done) on the
freshly made (open) channel. -/
def shutdownOnce : Except Unit Bool := closeChan false

/-- Calling the close-based shutdown a second time, on the state left by
the first call. -/
def shutdownTwice : Except Unit Bool :=
  match closeChan false with
  | .ok closed => closeChan closed
  | .error e => .error e

/-- getEnvInt of log_generator.go: strconv.Atoi accepts any integer; a
parse failure falls back to the default. -/
def getEnvInt (parsed : Option Int) (defaultValue : Int) : Int :=
  parsed.getD defaultValue

/-- Go integer division of time.Duration values (truncated int64 division);
division by zero panics, the none case. -/
def goDurationDiv (a b : Int) : Option Int :=
  if b = 0 then none else some (Int.tdiv a b)

/-- time.NewTicker panics on a non-positive interval. -/
def newTicker (d : Int) : Option Int :=
  if d ≤ 0 then none else some d

/-- The startup of generateLogData: delay := time.Second / logRate followed
by time.NewTicker(delay); none is a panic before the loop runs. -/
def generateLogDataStartup (logRate : Int) : Option Int :=
  (goDurationDiv 1000000000 logRate).bind newTicker

/-! ### Helper lemmas about the send functions -/

lemma sendLogBatch_lg_success_counter (data : List Nat) (q : Except Unit Unit)
    (d : Except Unit HttpResponse) (c : Int)
    (h : (sendLogBatch_lg (Except.ok data) q d c).1 = SendResult.success) :
    (sendLogBatch_lg (Except.ok data) q d c).2 = c + data.length := by
  rcases q with u | u
  · simp [sendLogBatch_lg] at h
  · rcases d with u | resp
    · simp [sendLogBatch_lg] at h
    · by_cases hs : 400 ≤ resp.statusCode
      · simp [sendLogBatch_lg, hs] at h
      · simp [sendLogBatch_lg, hs]

lemma sendLogBatch_lg_failure_counter (m : Except Unit (List Nat)) (q : Except Unit Unit)
    (d : Except Unit HttpResponse) (c : Int)
    (h : (sendLogBatch_lg m q d c).1 ≠ SendResult.success) :
    (sendLogBatch_lg m q d c).2 = c := by
  rcases m with u | data
  · rfl
  · rcases q with u | u
    · rfl
    · rcases d with u | resp
      · rfl
      · by_cases hs : 400 ≤ resp.statusCode
        · simp [sendLogBatch_lg, hs]
        · exact absurd (by simp [sendLogBatch_lg, hs]) h

lemma sendLogBatch_main_success_counter (data : List Nat) (q : Except Unit Unit)
    (d : Except Unit HttpResponse) (c : Int)
    (h : (sendLogBatch_main (Except.ok data) q d c).1 = SendResult.success) :
    (sendLogBatch_main (Except.ok data) q d c).2 = c + data.length := by
  rcases q with u | u
  · simp [sendLogBatch_main] at h
  · rcases d with u | resp
    · simp [sendLogBatch_main] at h
    · by_cases hs : resp.statusCode ≠ 200 ∧ resp.statusCode ≠ 201
      · simp [sendLogBatch_main, hs] at h
      · simp [sendLogBatch_main, hs]

lemma sendLogBatch_main_failure_counter (m : Except Unit (List Nat)) (q : Except Unit Unit)
    (d : Except Unit HttpResponse) (c : Int)
    (h : (sendLogBatch_main m q d c).1 ≠ SendResult.success) :
    (sendLogBatch_main m q d c).2 = c := by
  rcases m with u | data
  · rfl
  · rcases q with u | u
    · rfl
    · rcases d with u | resp
      · rfl
      · by_cases hs : resp.statusCode ≠ 200 ∧ resp.statusCode ≠ 201
        · simp [sendLogBatch_main, hs]
        · exact absurd (by simp [sendLogBatch_main, hs]) h

/-! ### Claims about the transport layer -/

/-- C1, counterexample: the claim "any 2xx status is success and any
non-2xx status is a rejection" is false on the code.  The log_generator
variant accepts status 302 (not a 2xx), and the main variant rejects
status 204 (a 2xx). -/
theorem sendLogBatch_2xx_claim_counterexample :
    is2xxSpec 302 = false
    ∧ (sendLogBatch_lg (Except.ok [0]) (Except.ok ()) (Except.ok ⟨302, []⟩) 0).1
        = SendResult.success
    ∧ is2xxSpec 204 = true
    ∧ (sendLogBatch_main (Except.ok [0]) (Except.ok ()) (Except.ok ⟨204, []⟩) 0).1
        = SendResult.rejected 204 := by
  refine ⟨rfl, rfl, rfl, ?_⟩
  decide

/-- C1, amended: the log_generator variant classifies a status below 400 as
success and a status of 400 or above as a rejection carrying the status;
the main variant classifies exactly 200 and 201 as success and any other
status as a rejection carrying the status; in both variants the result is
independent of the response body. -/
theorem sendLogBatch_status_classification (data : List Nat) (c : Int) (code : Nat)
    (b bAlt : List Nat) :
    ((sendLogBatch_lg (Except.ok data) (Except.ok ()) (Except.ok ⟨code, b⟩) c).1 =
      if 400 ≤ code then SendResult.rejected code else SendResult.success)
    ∧ ((sendLogBatch_main (Except.ok data) (Except.ok ()) (Except.ok ⟨code, b⟩) c).1 =
      if code = 200 ∨ code = 201 then SendResult.success else SendResult.rejected code)
    ∧ sendLogBatch_lg (Except.ok data) (Except.ok ()) (Except.ok ⟨code, b⟩) c
      = sendLogBatch_lg (Except.ok data) (Except.ok ()) (Except.ok ⟨code, bAlt⟩) c
    ∧ sendLogBatch_main (Except.ok data) (Except.ok ()) (Except.ok ⟨code, b⟩) c
      = sendLogBatch_main (Except.ok data) (Except.ok ()) (Except.ok ⟨code, bAlt⟩) c := by
  refine ⟨?_, ?_, rfl, rfl⟩
  · by_cases hs : 400 ≤ code <;> simp [sendLogBatch_lg, hs]
  · by_cases hs : code = 200 ∨ code = 201
    · have hne : ¬(code ≠ 200 ∧ code ≠ 201) := by tauto
      simp [sendLogBatch_main, hne, hs]
    · have hne : code ≠ 200 ∧ code ≠ 201 := by tauto
      simp [sendLogBatch_main, hne, hs]

/-- C2: in both log-sender variants the throughput counter is incremented
by exactly the serialized payload length on a successful send and is left
unchanged by every failing send, and chaining two successful sends of
payload sizes X and Y adds X + Y. -/
theorem sendLogBatch_counter_spec (m : Except Unit (List Nat)) (q : Except Unit Unit)
    (d : Except Unit HttpResponse) (c : Int) :
    (∀ data, m = Except.ok data → (sendLogBatch_lg m q d c).1 = SendResult.success →
      (sendLogBatch_lg m q d c).2 = c + data.length)
    ∧ ((sendLogBatch_lg m q d c).1 ≠ SendResult.success → (sendLogBatch_lg m q d c).2 = c)
    ∧ (∀ data, m = Except.ok data → (sendLogBatch_main m q d c).1 = SendResult.success →
      (sendLogBatch_main m q d c).2 = c + data.length)
    ∧ ((sendLogBatch_main m q d c).1 ≠ SendResult.success → (sendLogBatch_main m q d c).2 = c)
    ∧ (∀ dX dY : List Nat, ∀ rX rY : HttpResponse,
        (sendLogBatch_lg (Except.ok dX) (Except.ok ()) (Except.ok rX) c).1
          = SendResult.success →
        (sendLogBatch_lg (Except.ok dY) (Except.ok ()) (Except.ok rY)
          ((sendLogBatch_lg (Except.ok dX) (Except.ok ()) (Except.ok rX) c).2)).1
          = SendResult.success →
        (sendLogBatch_lg (Except.ok dY) (Except.ok ()) (Except.ok rY)
          ((sendLogBatch_lg (Except.ok dX) (Except.ok ()) (Except.ok rX) c).2)).2
          = c + dX.length + dY.length) := by
  refine ⟨?_, sendLogBatch_lg_failure_counter m q d c, ?_,
    sendLogBatch_main_failure_counter m q d c, ?_⟩
  · intro data hm hs
    subst hm
    exact sendLogBatch_lg_success_counter data q d c hs
  · intro data hm hs
    subst hm
    exact sendLogBatch_main_success_counter data q d c hs
  · intro dX dY rX rY h1 h2
    have e1 := sendLogBatch_lg_success_counter dX (Except.ok ()) (Except.ok rX) c h1
    have e2 := sendLogBatch_lg_success_counter dY (Except.ok ())
      (Except.ok rY) ((sendLogBatch_lg (Except.ok dX) (Except.ok ()) (Except.ok rX) c).2) h2
    rw [e2, e1]

/-- C2, witness: two successful sends of payloads of sizes 1 and 3 starting
from counter 0 end with counter 0 + 1 + 3. -/
theorem sendLogBatch_counter_spec_witness :
    (sendLogBatch_lg (Except.ok [5, 6, 7]) (Except.ok ()) (Except.ok ⟨201, []⟩)
      ((sendLogBatch_lg (Except.ok [4]) (Except.ok ()) (Except.ok ⟨200, []⟩) 0).2)).2
      = 0 + (([4] : List Nat).length : Int) + (([5, 6, 7] : List Nat).length : Int) :=
  (sendLogBatch_counter_spec (Except.ok []) (Except.ok ()) (Except.ok ⟨200, []⟩) 0).2.2.2.2
    [4] [5, 6, 7] ⟨200, []⟩ ⟨201, []⟩ (by decide) (by decide)

/-- C8: in sendTrace of trace_generator.go the marshal-error check has an
empty body, so when serialization fails the trace is not dropped: the POST
is still issued (with the nil payload) and, for a 200 response, the send
even reports success; and this holds whatever the response is. -/
theorem sendTrace_marshal_error_still_posts :
    sendTrace (Except.error ()) (Except.ok ()) (Except.ok ⟨200, [7]⟩)
      = (SendResult.success, some [])
    ∧ ∀ resp : HttpResponse,
        (sendTrace (Except.error ()) (Except.ok ()) (Except.ok resp)).2 = some [] := by
  refine ⟨rfl, ?_⟩
  intro resp
  by_cases hs : resp.statusCode ≠ 200 <;> simp [sendTrace, hs]

/-! ### Claims about batch assembly -/

/-- C3: the per-tick batch has exactly batchSize records and every record
carries the timestamp captured once before the loop. -/
theorem generateLogBatch_length_timestamp (batchSize : Nat) (now : String)
    (levelAt jobAt msgAt : Nat → String) :
    (generateLogBatch batchSize now levelAt jobAt msgAt).length = batchSize
    ∧ ((generateLogBatch batchSize now levelAt jobAt msgAt).all
        fun r => r.timestamp == now) = true := by
  constructor
  · simp [generateLogBatch]
  · simp [generateLogBatch, List.all_eq_true]

/-! ### Claims about shutdown -/

/-- C6, counterexample: calling the close-based shutdown twice does not
have the same observable effect as calling it once: the second close of
the already-closed done channel panics. -/
theorem shutdown_twice_counterexample : shutdownTwice ≠ shutdownOnce := by
  have h1 : shutdownTwice = Except.error () := rfl
  have h2 : shutdownOnce = Except.ok true := rfl
  rw [h1, h2]
  exact fun h => Except.noConfusion h

/-- C6, amended: main closes the done channel exactly once; the first close
succeeds and broadcasts shutdown, while a second close of the
already-closed channel panics, so the implemented shutdown is not
idempotent. -/
theorem shutdown_close_semantics :
    shutdownOnce = Except.ok true ∧ shutdownTwice = Except.error () :=
  ⟨rfl, rfl⟩

/-! ### Claims about startup and the tick interval -/

/-- C10: the LOG_RATE parser accepts any integer, the tick interval is one
second divided by the rate with no guard on the divisor, so the configured
rate 0 panics at startup (division by zero), and every non-panicking start
of the generation loop requires rate at least 1 (a negative rate panics in
time.NewTicker). -/
theorem generateLogDataStartup_requires_positive_rate :
    (∀ v dflt : Int, getEnvInt (some v) dflt = v)
    ∧ generateLogDataStartup (getEnvInt (some 0) 1) = none
    ∧ ∀ r d : Int, generateLogDataStartup r = some d → 1 ≤ r := by
  refine ⟨fun v dflt => rfl, rfl, ?_⟩
  intro r d h
  by_contra hr
  push_neg at hr
  rcases lt_or_eq_of_le (by omega : r ≤ 0) with hneg | h0
  · have hq : Int.tdiv 1000000000 r ≤ 0 := Int.tdiv_nonpos (by omega) (by omega)
    have hrne : r ≠ 0 := by omega
    simp [generateLogDataStartup, goDurationDiv, newTicker, hrne, hq] at h
  · subst h0
    simp [generateLogDataStartup, goDurationDiv] at h

/-- C10, witness: rate 1 passes startup with a one-second tick interval,
and is indeed at least 1. -/
theorem generateLogDataStartup_witness :
    generateLogDataStartup 1 = some 1000000000 ∧ (1 : Int) ≤ 1 :=
  ⟨by decide, generateLogDataStartup_requires_positive_rate.2.2 1 1000000000 (by decide)⟩

/-! ### Helper lemmas about the trace builder -/

lemma childSpans_length (tid rid : String) (idAt : Nat → String) (jitAt : Nat → Fin 100)
    (durAt : Nat → Fin 200) (t0 : Int) :
    ∀ (services : List String) (i : Nat) (clock : Int),
      (childSpans tid rid idAt jitAt durAt t0 services i clock).1.length
        = services.length := by
  intro services
  induction services with
  | nil => intro i clock; rfl
  | cons s rest ih =>
    intro i clock
    simp [childSpans, ih]

lemma childSpans_forall (tid rid : String) (idAt : Nat → String) (jitAt : Nat → Fin 100)
    (durAt : Nat → Fin 200) (t0 : Int) :
    ∀ (services : List String) (i : Nat) (clock : Int),
      ∀ sp ∈ (childSpans tid rid idAt jitAt durAt t0 services i clock).1,
        sp.parentId = rid ∧ sp.traceId = tid := by
  intro services
  induction services with
  | nil => intro i clock sp hsp; simp [childSpans] at hsp
  | cons s rest ih =>
    intro i clock sp hsp
    simp only [childSpans, List.mem_cons] at hsp
    rcases hsp with h | h
    · subst h; exact ⟨rfl, rfl⟩
    · exact ih (i + 1) _ sp h

lemma childSpans_clock_le (tid rid : String) (idAt : Nat → String) (jitAt : Nat → Fin 100)
    (durAt : Nat → Fin 200) (t0 : Int) :
    ∀ (services : List String) (i : Nat) (clock : Int),
      clock ≤ (childSpans tid rid idAt jitAt durAt t0 services i clock).2 := by
  intro services
  induction services with
  | nil => intro i clock; simp [childSpans]
  | cons s rest ih =>
    intro i clock
    have hd : (0 : Int) ≤ ((durAt i).val : Int) := by exact_mod_cast Nat.zero_le _
    have h1 : clock ≤ clock + (100 + ((durAt i).val : Int)) * 1000000 := by omega
    simp only [childSpans]
    exact le_trans h1 (ih (i + 1) _)

lemma childSpans_start_le_end (tid rid : String) (idAt : Nat → String) (jitAt : Nat → Fin 100)
    (durAt : Nat → Fin 200) (t0 : Int) :
    ∀ (services : List String) (i : Nat) (clock : Int), t0 ≤ clock →
      ∀ sp ∈ (childSpans tid rid idAt jitAt durAt t0 services i clock).1,
        sp.startTime ≤ sp.endTime := by
  intro services
  induction services with
  | nil => intro i clock h0 sp hsp; simp [childSpans] at hsp
  | cons s rest ih =>
    intro i clock h0 sp hsp
    have hj : ((jitAt i).val : Int) < 100 := by exact_mod_cast (jitAt i).isLt
    have hd : (0 : Int) ≤ ((durAt i).val : Int) := by exact_mod_cast Nat.zero_le _
    simp only [childSpans, List.mem_cons] at hsp
    rcases hsp with h | h
    · subst h
      show t0 + ((jitAt i).val : Int) * 1000000
          ≤ clock + (100 + ((durAt i).val : Int)) * 1000000
      omega
    · exact ih (i + 1) (clock + (100 + ((durAt i).val : Int)) * 1000000) (by omega) sp h

/-! ### Claims about the trace shape -/

/-- C4: a completed generateTrace over a catalog of n services yields
exactly n + 1 spans, exactly one of which (the root) has no parentId,
every span with a parentId points at the root span's id, and all spans
carry the trace's id. -/
theorem generateTrace_shape (tid rid : String) (idAt : Nat → String) (jitAt : Nat → Fin 100)
    (durAt : Nat → Fin 200) (t0 : Int) (services : List String) (hroot : rid ≠ "") :
    (generateTrace tid rid idAt jitAt durAt t0 services).spans.length = services.length + 1
    ∧ ((generateTrace tid rid idAt jitAt durAt t0 services).spans.countP
        fun sp => sp.parentId == "") = 1
    ∧ ((generateTrace tid rid idAt jitAt durAt t0 services).spans.all
        fun sp => sp.parentId == "" || sp.parentId == rid) = true
    ∧ ((generateTrace tid rid idAt jitAt durAt t0 services).spans.all
        fun sp => sp.traceId == tid) = true := by
  unfold generateTrace
  refine ⟨?_, ?_, ?_, ?_⟩
  · simp [childSpans_length]
  · rw [List.countP_append]
    have hz : ((childSpans tid rid idAt jitAt durAt t0 services 0 t0).1.countP
        fun sp => sp.parentId == "") = 0 := by
      rw [List.countP_eq_zero]
      intro sp hsp
      have hpar := (childSpans_forall tid rid idAt jitAt durAt t0 services 0 t0 sp hsp).1
      simp [hpar, hroot]
    rw [hz]
    simp [rootSpanOf]
  · rw [List.all_append, Bool.and_eq_true]
    constructor
    · rw [List.all_eq_true]
      intro sp hsp
      have hpar := (childSpans_forall tid rid idAt jitAt durAt t0 services 0 t0 sp hsp).1
      simp [hpar]
    · simp [rootSpanOf]
  · rw [List.all_append, Bool.and_eq_true]
    constructor
    · rw [List.all_eq_true]
      intro sp hsp
      have htr := (childSpans_forall tid rid idAt jitAt durAt t0 services 0 t0 sp hsp).2
      simp [htr]
    · simp [rootSpanOf]

/-- C4, witness: with the real four-service catalog and nonempty ids, the
trace has 4 + 1 spans. -/
theorem generateTrace_shape_witness :
    ("r" : String) ≠ ""
    ∧ (generateTrace "t" "r" (fun _ => "c") (fun _ => 0) (fun _ => 0) 0
        serviceNames).spans.length = serviceNames.length + 1 :=
  ⟨by decide,
   (generateTrace_shape "t" "r" (fun _ => "c") (fun _ => 0) (fun _ => 0) 0 serviceNames
     (by decide)).1⟩

/-- C9: every span of a completed generateTrace, the root and every child,
satisfies startTime less than or equal to endTime: a child starts at the
trace start plus a jitter strictly below 100 ms but ends only after at
least one full simulated duration of at least 100 ms, and the root spans
from the trace start to after all children complete. -/
theorem generateTrace_start_le_end (tid rid : String) (idAt : Nat → String)
    (jitAt : Nat → Fin 100) (durAt : Nat → Fin 200) (t0 : Int) (services : List String) :
    ((generateTrace tid rid idAt jitAt durAt t0 services).spans.all
      fun sp => decide (sp.startTime ≤ sp.endTime)) = true := by
  unfold generateTrace
  rw [List.all_append, Bool.and_eq_true]
  constructor
  · rw [List.all_eq_true]
    intro sp hsp
    exact decide_eq_true
      (childSpans_start_le_end tid rid idAt jitAt durAt t0 services 0 t0 le_rfl sp hsp)
  · have hc := childSpans_clock_le tid rid idAt jitAt durAt t0 services 0 t0
    simp [rootSpanOf, hc]

/-! ### Cancellation of the trace builder -/

lemma childSpansC_cancel (tid rid : String) (idAt : Nat → String) (jitAt : Nat → Fin 100)
    (durAt : Nat → Fin 200) (t0 tc : Int) :
    ∀ (services : List String) (i : Nat) (clock : Int), clock ≤ tc →
      tc < (childSpans tid rid idAt jitAt durAt t0 services i clock).2 →
      (childSpansC tid rid idAt jitAt durAt t0 tc services i clock).1 = Except.error ()
      ∧ (childSpansC tid rid idAt jitAt durAt t0 tc services i clock).2 ≤ tc := by
  intro services
  induction services with
  | nil =>
    intro i clock hle hlt
    exfalso
    simp [childSpans] at hlt
    omega
  | cons s rest ih =>
    intro i clock hle hlt
    by_cases h1 : tc ≤ clock
    · constructor
      · simp [childSpansC, h1]
      · simp [childSpansC, h1]
        exact hle
    · by_cases h2 : tc < clock + (100 + ((durAt i).val : Int)) * 1000000
      · constructor <;> simp [childSpansC, h1, h2]
      · have hfire : clock + (100 + ((durAt i).val : Int)) * 1000000 ≤ tc := by omega
        have hrest : tc < (childSpans tid rid idAt jitAt durAt t0 rest (i + 1)
            (clock + (100 + ((durAt i).val : Int)) * 1000000)).2 := by
          simpa [childSpans] using hlt
        have hrec := ih (i + 1) (clock + (100 + ((durAt i).val : Int)) * 1000000) hfire hrest
        constructor
        · simp [childSpansC, h1, h2, hrec.1]
        · simpa [childSpansC, h1, h2] using hrec.2

/-- C5: if the cancellation signal arrives at virtual time tc after the
trace start but before the uncancelled run would have finished its
simulated span durations, generateTrace returns the cancellation outcome
no later than tc (in particular before the remaining simulated duration
has elapsed) and the partially built trace is never handed to sendTrace. -/
theorem generateTraceC_cancelled (tid rid : String) (idAt : Nat → String)
    (jitAt : Nat → Fin 100) (durAt : Nat → Fin 200) (t0 tc : Int) (services : List String)
    (h0 : t0 ≤ tc)
    (hlt : tc < (childSpans tid rid idAt jitAt durAt t0 services 0 t0).2) :
    (generateTraceC tid rid idAt jitAt durAt t0 tc services).1 = Except.error ()
    ∧ (generateTraceC tid rid idAt jitAt durAt t0 tc services).2 ≤ tc
    ∧ sentTraceC tid rid idAt jitAt durAt t0 tc services = none := by
  have h := childSpansC_cancel tid rid idAt jitAt durAt t0 tc services 0 t0 h0 hlt
  refine ⟨?_, ?_, ?_⟩
  · simp [generateTraceC, h.1]
  · simpa [generateTraceC] using h.2
  · simp [sentTraceC, generateTraceC, h.1]

/-- C5, witness: with the real service catalog, trace start 0 and a
cancellation arriving at 50 ms (within the first simulated span duration
of at least 100 ms), the run is cancelled and nothing is sent. -/
theorem generateTraceC_cancelled_witness :
    (0 : Int) ≤ 50000000
    ∧ 50000000 < (childSpans "t" "r" (fun _ => "c") (fun _ => 0) (fun _ => 0) 0
        serviceNames 0 0).2
    ∧ sentTraceC "t" "r" (fun _ => "c") (fun _ => 0) (fun _ => 0) 0 50000000
        serviceNames = none :=
  ⟨by decide, by decide,
   (generateTraceC_cancelled "t" "r" (fun _ => "c") (fun _ => 0) (fun _ => 0) 0 50000000
     serviceNames (by decide) (by decide)).2.2⟩

/-! ### Claims about level selection -/

lemma selectLoopLT_mem (r : Int) :
    ∀ (ws : List (String × Int)) (cur : Int),
      selectLoopLT ws cur r = "info" ∨ selectLoopLT ws cur r ∈ ws.map Prod.fst := by
  intro ws
  induction ws with
  | nil => intro cur; left; rfl
  | cons p rest ih =>
    intro cur
    obtain ⟨l, w⟩ := p
    simp only [selectLoopLT]
    by_cases h : r < cur + w
    · right
      simp [h]
    · rw [if_neg h]
      rcases ih (cur + w) with h2 | h2
      · left; exact h2
      · right
        simp only [List.map_cons, List.mem_cons]
        right
        exact h2

lemma selectLoopLE_mem (r : Int) :
    ∀ (ws : List (String × Int)) (cur : Int),
      selectLoopLE ws cur r = "info" ∨ selectLoopLE ws cur r ∈ ws.map Prod.fst := by
  intro ws
  induction ws with
  | nil => intro cur; left; rfl
  | cons p rest ih =>
    intro cur
    obtain ⟨l, w⟩ := p
    simp only [selectLoopLE]
    by_cases h : r ≤ cur + w
    · right
      simp [h]
    · rw [if_neg h]
      rcases ih (cur + w) with h2 | h2
      · left; exact h2
      · right
        simp only [List.map_cons, List.mem_cons]
        right
        exact h2

/-- C7, counterexample: the level returned by getRandomLogLevel depends on
the iteration order of the weight map, which Go does not fix: two legal
iteration orders of the same four entries give different levels for the
same draw. -/
theorem getRandomLogLevel_order_counterexample :
    ([("info", 60), ("debug", 15), ("warn", 20), ("error", 5)] :
        List (String × Int)).Perm logWeights
    ∧ getRandomLogLevel_lg logWeights 0
      ≠ getRandomLogLevel_lg [("info", 60), ("debug", 15), ("warn", 20), ("error", 5)] 0 := by
  constructor
  · decide
  · decide

/-- C7, amended: the weights debug 15, info 60, warn 20, error 5 sum to
100; the log_generator variant draws in [0, 100) and returns the first
level whose cumulative weight strictly exceeds the draw, the main variant
draws in [1, 100] and uses a non-strict comparison; the accumulation order
is the weight map's iteration order, which Go leaves unspecified, and for
every iteration order and every draw the result is one of
debug, info, warn, error. -/
theorem getRandomLogLevel_levels (order : List (String × Int))
    (horder : order.Perm logWeights) (r : Int) :
    weightsTotal logWeights = 100
    ∧ getRandomLogLevel_lg order r ∈ logLevelNames
    ∧ getRandomLogLevel_main order r ∈ logLevelNames := by
  have hmap : (order.map Prod.fst).Perm (logWeights.map Prod.fst) := horder.map Prod.fst
  have hnames : logWeights.map Prod.fst = logLevelNames := by decide
  refine ⟨by decide, ?_, ?_⟩
  · rw [getRandomLogLevel_lg]
    rcases selectLoopLT_mem r order 0 with h | h
    · rw [h]; decide
    · rw [← hnames]
      exact hmap.mem_iff.mp h
  · rw [getRandomLogLevel_main]
    rcases selectLoopLE_mem r order 0 with h | h
    · rw [h]; decide
    · rw [← hnames]
      exact hmap.mem_iff.mp h

/-- C7, witness: with the canonical iteration order and draw 0, the chosen
level is one of the four level names. -/
theorem getRandomLogLevel_levels_witness :
    logWeights.Perm logWeights ∧ getRandomLogLevel_lg logWeights 0 ∈ logLevelNames :=
  ⟨List.Perm.refl _, (getRandomLogLevel_levels logWeights (List.Perm.refl _) 0).2.1⟩

end LoadGen
